import Mathlib

/-!
BS_model: diffusion processes and the Black-Scholes process.

A shallow embedding of `src/diffusionProcesses.cpp` and `src/main.cpp`.

Arithmetic carrier.  The C++ code computes on `double`.  The classes are
embedded over a carrier type `α` and use only the operations the source uses
(`+`, `-`, `*`, the literals `0.5` and `0.0`, `==`).  Three kinds of statement
are made.  A statement that is the source's formula read off is proved for
every carrier with these operations, so it holds of the program's doubles.  A
statement that needs the laws of exact arithmetic and says so is proved for an
arbitrary linearly ordered field (`ℚ`, `ℝ`).  A statement about the values the
program computes (zero time step, sign of the variance) is proved for `F64`, a
model of IEEE 754 binary64 with round-to-nearest-even, subnormal numbers,
signed zeros, infinities and NaN.

Classes.  An object of a class derived from `DiffusionProcess` is seen through
the base class as the data member `x0_` together with the two pure virtual
members `drift` and `diffusion` that the derived class supplies; the members
`expectation` and `variance` are the ones defined in the base class and reach
`drift` / `diffusion` through the object (dynamic dispatch).  The source never
overrides `expectation` or `variance`, so every model of the embedding inherits
them.
-/

/-- The source's `typedef double Time;`. -/
abbrev Time (α : Type) : Type := α

/-- The source's `typedef double Rate;`. -/
abbrev Rate (α : Type) : Type := α

/-! Binary64: the arithmetic of `double`. -/

/-- The number of binary digits of `n`, by repeated halving; `fuel` bounds the number of
halvings. -/
def bitLengthAux : Nat → Nat → Nat
  | 0, _ => 0
  | fuel + 1, n => if n = 0 then 0 else bitLengthAux fuel (n / 2) + 1

/-- The number of binary digits of `n` (0 for 0). -/
def bitLength (n : Nat) : Nat :=
  bitLengthAux n n

/-- An IEEE 754 binary64 value.  A nonzero finite value is given by its sign and by `ord`, the
number that its 11 exponent bits followed by its 52 fraction bits spell, `0 < ord < 2047 * 2^52`;
all NaNs are one value. -/
inductive F64 where
  | nan : F64
  | inf (sign : Bool) : F64
  | zero (sign : Bool) : F64
  | finite (sign : Bool) (ord : Nat) (pos : 0 < ord) (lt : ord < 2047 * 2 ^ 52) : F64
  deriving DecidableEq

namespace F64

/-- The value with sign `s` whose exponent and fraction bits spell `ord`; beyond the largest
finite value it is an infinity. -/
def ofOrd (s : Bool) (ord : Nat) : F64 :=
  if h0 : ord = 0 then zero s
  else if h : ord < 2047 * 2 ^ 52 then finite s ord (Nat.pos_of_ne_zero h0) h
  else inf s

/-- The integer significand `m` of the finite value whose bits spell `ord`; its magnitude is
`m * 2 ^ exponent ord`. -/
def significand (ord : Nat) : Nat :=
  if ord / 2 ^ 52 = 0 then ord % 2 ^ 52 else 2 ^ 52 + ord % 2 ^ 52

/-- The exponent of the unit in the last place of the finite value whose bits spell `ord`. -/
def exponent (ord : Nat) : Int :=
  if ord / 2 ^ 52 = 0 then -1074 else (ord / 2 ^ 52 : Nat) - 1075

/-- The binary64 value nearest to `m * 2 ^ e` (`m > 0`), ties to even, with sign `s`; overflow
gives an infinity, underflow a subnormal number or a zero. -/
def round (s : Bool) (m : Nat) (e : Int) : F64 :=
  let q : Int := max ((bitLength m : Int) - 1 + e - 52) (-1074)
  let mant : Nat :=
    if q ≤ e then m * 2 ^ (e - q).toNat
    else
      let sh := (q - e).toNat
      let mant0 := m / 2 ^ sh
      let rem := m % 2 ^ sh
      let half := 2 ^ (sh - 1)
      if half < rem ∨ (rem = half ∧ mant0 % 2 = 1) then mant0 + 1 else mant0
  ofOrd s ((q + 1074).toNat * 2 ^ 52 + mant)

/-- Unary minus: the sign bit is flipped. -/
def neg : F64 → F64
  | nan => nan
  | inf s => inf (!s)
  | zero s => zero (!s)
  | finite s o h1 h2 => finite (!s) o h1 h2

/-- Multiplication: the exact product, rounded. -/
def mul : F64 → F64 → F64
  | nan, _ => nan
  | _, nan => nan
  | inf _, zero _ => nan
  | zero _, inf _ => nan
  | inf s1, inf s2 => inf (xor s1 s2)
  | inf s1, finite s2 _ _ _ => inf (xor s1 s2)
  | finite s1 _ _ _, inf s2 => inf (xor s1 s2)
  | zero s1, zero s2 => zero (xor s1 s2)
  | zero s1, finite s2 _ _ _ => zero (xor s1 s2)
  | finite s1 _ _ _, zero s2 => zero (xor s1 s2)
  | finite s1 o1 _ _, finite s2 o2 _ _ =>
    round (xor s1 s2) (significand o1 * significand o2) (exponent o1 + exponent o2)

/-- Addition: the exact sum, rounded; an exact zero sum of two nonzero values is `+0`. -/
def add : F64 → F64 → F64
  | nan, _ => nan
  | _, nan => nan
  | inf s1, inf s2 => if s1 = s2 then inf s1 else nan
  | inf s1, zero _ => inf s1
  | inf s1, finite _ _ _ _ => inf s1
  | zero _, inf s2 => inf s2
  | finite _ _ _ _, inf s2 => inf s2
  | zero s1, zero s2 => zero (s1 && s2)
  | zero _, finite s2 o2 h1 h2 => finite s2 o2 h1 h2
  | finite s1 o1 h1 h2, zero _ => finite s1 o1 h1 h2
  | finite s1 o1 _ _, finite s2 o2 _ _ =>
    let e : Int := min (exponent o1) (exponent o2)
    let a := significand o1 * 2 ^ (exponent o1 - e).toNat
    let b := significand o2 * 2 ^ (exponent o2 - e).toNat
    if s1 = s2 then round s1 (a + b) e
    else if a = b then zero false
    else if b < a then round s1 (a - b) e
    else round s2 (b - a) e

/-- Subtraction: addition of the negated second operand. -/
def sub (a b : F64) : F64 :=
  add a (neg b)

/-- The binary64 value nearest to `n / d` (`d > 0`), with sign `s`: the quotient is taken to at
least 64 binary digits and the rest is kept as one sticky digit. -/
def ofQuotient (s : Bool) (n d : Nat) : F64 :=
  if n = 0 then zero s
  else
    let k := bitLength d + 64
    let q := n * 2 ^ k / d
    let sticky := if n * 2 ^ k % d = 0 then 0 else 1
    round s (2 * q + sticky) (-(k : Int) - 1)

/-- A decimal literal `mantissa * 10 ^ (± decimalExponent)`, correctly rounded. -/
def ofScientific (mantissa : Nat) (exponentSign : Bool) (decimalExponent : Nat) : F64 :=
  if exponentSign then ofQuotient false mantissa (10 ^ decimalExponent)
  else ofQuotient false (mantissa * 10 ^ decimalExponent) 1

/-- An integer literal converted to `double`. -/
def ofNat (n : Nat) : F64 :=
  ofQuotient false n 1

/-- The place of a value in the order of the doubles (both zeros at 0); none for NaN. -/
def key : F64 → Option Int
  | nan => none
  | inf s => some (if s then -(2047 * 2 ^ 52 : Nat) else (2047 * 2 ^ 52 : Nat))
  | zero _ => some 0
  | finite s o _ _ => some (if s then -(o : Int) else (o : Int))

/-- The comparison `a == b` of C++: false when either is NaN, `+0 == -0`. -/
def eq (a b : F64) : Bool :=
  match key a, key b with
  | some x, some y => decide (x = y)
  | _, _ => false

/-- The comparison `a < b` of C++: false when either is NaN. -/
def lt (a b : F64) : Bool :=
  match key a, key b with
  | some x, some y => decide (x < y)
  | _, _ => false

/-- The comparison `a <= b` of C++: false when either is NaN. -/
def le (a b : F64) : Bool :=
  match key a, key b with
  | some x, some y => decide (x ≤ y)
  | _, _ => false

/-- Whether the value is NaN. -/
def isNaN : F64 → Bool
  | nan => true
  | _ => false

/-- Whether the value is `+inf` or `-inf`. -/
def isInf : F64 → Bool
  | inf _ => true
  | _ => false

/-- Whether the value is `+0` or `-0`. -/
def isZero : F64 → Bool
  | zero _ => true
  | _ => false

/-- Whether the value is finite: neither an infinity nor NaN. -/
def isFinite : F64 → Bool
  | zero _ => true
  | finite _ _ _ _ => true
  | _ => false

/-- The sign bit (taken as clear for NaN). -/
def signBit : F64 → Bool
  | nan => false
  | inf s => s
  | zero s => s
  | finite s _ _ _ => s

instance : Add F64 := ⟨add⟩

instance : Sub F64 := ⟨sub⟩

instance : Mul F64 := ⟨mul⟩

instance : Neg F64 := ⟨neg⟩

instance : OfScientific F64 := ⟨ofScientific⟩

instance (n : Nat) : OfNat F64 n := ⟨ofNat n⟩

instance : BEq F64 := ⟨eq⟩

end F64

/-! The classes of the source. -/

namespace DiffusionProcessesCpp

/-- The class `DiffusionProcess` of `diffusionProcesses.cpp` (lines 9-43): the private member
`x0_` and the pure virtual members `drift`, `diffusion`.  A value exists only
once both are supplied. -/
structure DiffusionProcess (α : Type) where
  x0_ : α
  drift : Time α → α → α
  diffusion : Time α → α → α

variable {α : Type}

/-- The constructor `DiffusionProcess(double x0) : x0_(x0) {}` as run by a derived
class that supplies `drift` and `diffusion`. -/
def DiffusionProcess.new (x0 : α) (drift diffusion : Time α → α → α) : DiffusionProcess α :=
  ⟨x0, drift, diffusion⟩

/-- The accessor `double x0() const { return x0_; }`. -/
def DiffusionProcess.x0 (self : DiffusionProcess α) : α :=
  self.x0_

/-- The member `expectation`: `return x0 + drift(t0,x0) * dt;`. -/
def DiffusionProcess.expectation [Add α] [Mul α] (self : DiffusionProcess α)
    (t0 : Time α) (x0 : α) (dt : Time α) : α :=
  x0 + self.drift t0 x0 * dt

/-- The member `variance`: `double sigma = diffusion(t0, x0); return sigma * sigma * dt;`. -/
def DiffusionProcess.variance [Mul α] (self : DiffusionProcess α)
    (t0 : Time α) (x0 : α) (dt : Time α) : α :=
  let sigma := self.diffusion t0 x0
  sigma * sigma * dt

end DiffusionProcessesCpp

namespace MainCpp

/-- The class `DiffusionProcess` of `main.cpp` (lines 12-46): the private member `x0_` and the
pure virtual members `drift`, `diffusion`.  A value exists only once both are
supplied. -/
structure DiffusionProcess (α : Type) where
  x0_ : α
  drift : Time α → α → α
  diffusion : Time α → α → α

variable {α : Type}

/-- The constructor `DiffusionProcess(double x0) : x0_(x0) {}` as run by a derived
class that supplies `drift` and `diffusion`. -/
def DiffusionProcess.new (x0 : α) (drift diffusion : Time α → α → α) : DiffusionProcess α :=
  ⟨x0, drift, diffusion⟩

/-- The accessor `double x0() const { return x0_; }`. -/
def DiffusionProcess.x0 (self : DiffusionProcess α) : α :=
  self.x0_

/-- The member `expectation`: `return x0 + drift(t0,x0) * dt;`. -/
def DiffusionProcess.expectation [Add α] [Mul α] (self : DiffusionProcess α)
    (t0 : Time α) (x0 : α) (dt : Time α) : α :=
  x0 + self.drift t0 x0 * dt

/-- The member `variance`: `double sigma = diffusion(t0, x0); return sigma * sigma * dt;`. -/
def DiffusionProcess.variance [Mul α] (self : DiffusionProcess α)
    (t0 : Time α) (x0 : α) (dt : Time α) : α :=
  let sigma := self.diffusion t0 x0
  sigma * sigma * dt

/-- The data members of a `BlackScholesProcess` object: the inherited `x0_` and its own
`r_`, `sigma_`. -/
structure BlackScholesProcess (α : Type) where
  x0_ : α
  r_ : α
  sigma_ : α

/-- The constructor
`BlackScholesProcess (Rate rate, double volatility, double s0 = 0.0) : DiffusionProcess(s0), r_(rate), sigma_(volatility) {}`.
The optional third argument is `none` when the call omits it; the default `0.0` is
then used. -/
def BlackScholesProcess.new [OfScientific α] (rate : Rate α) (volatility : α) (s0 : Option α) :
    BlackScholesProcess α :=
  ⟨s0.getD 0.0, rate, volatility⟩

/-- The override `drift`: `return r_ - 0.5*sigma_*sigma_;` (the arguments are unused). -/
def BlackScholesProcess.drift [Sub α] [Mul α] [OfScientific α] (self : BlackScholesProcess α)
    (_t : Time α) (_x : α) : α :=
  self.r_ - 0.5 * self.sigma_ * self.sigma_

/-- The override `diffusion`: `return sigma_;` (the arguments are unused). -/
def BlackScholesProcess.diffusion (self : BlackScholesProcess α) (_t : Time α) (_x : α) : α :=
  self.sigma_

/-- A `BlackScholesProcess` used as a `DiffusionProcess` (public inheritance): the base sub-object
with the two virtual members bound to the overrides. -/
def BlackScholesProcess.toDiffusionProcess [Sub α] [Mul α] [OfScientific α]
    (self : BlackScholesProcess α) : DiffusionProcess α :=
  ⟨self.x0_, self.drift, self.diffusion⟩

/-- The inherited accessor `x0()` on a `BlackScholesProcess`. -/
def BlackScholesProcess.x0 [Sub α] [Mul α] [OfScientific α] (self : BlackScholesProcess α) : α :=
  self.toDiffusionProcess.x0

/-- The inherited member `expectation` on a `BlackScholesProcess`. -/
def BlackScholesProcess.expectation [Add α] [Sub α] [Mul α] [OfScientific α]
    (self : BlackScholesProcess α) (t0 : Time α) (x0 : α) (dt : Time α) : α :=
  self.toDiffusionProcess.expectation t0 x0 dt

/-- The inherited member `variance` on a `BlackScholesProcess`. -/
def BlackScholesProcess.variance [Sub α] [Mul α] [OfScientific α]
    (self : BlackScholesProcess α) (t0 : Time α) (x0 : α) (dt : Time α) : α :=
  self.toDiffusionProcess.variance t0 x0 dt

/-- The test function of `main.cpp` (lines 69-76):
`return START_PRICE == process.expectation(0, START_PRICE, 0);`. -/
def BlackScholesProcess_expected_price_after_time_0_should_be_the_starting_price
    (α : Type) [Add α] [Sub α] [Mul α] [OfScientific α] [OfNat α 0] [BEq α] : Bool :=
  let START_PRICE : α := 12.1
  let RATE : Rate α := 0.05
  let VOLATILITY : α := 0.06
  let process : BlackScholesProcess α := BlackScholesProcess.new RATE VOLATILITY none
  START_PRICE == process.expectation 0 START_PRICE 0

end MainCpp

/-! Theorems. -/

section Theorems

open MainCpp

set_option maxRecDepth 100000

set_option exponentiation.threshold 4096

/-- Halving with enough fuel counts the binary digits: `n < 2 ^ k`, and `2 ^ (k - 1) ≤ n` when
`n` is positive, for `k = bitLengthAux fuel n` and `n ≤ fuel`. -/
theorem bitLengthAux_spec (fuel : Nat) :
    ∀ n, n ≤ fuel →
      n < 2 ^ bitLengthAux fuel n ∧ (0 < n → 2 ^ (bitLengthAux fuel n - 1) ≤ n) := by
  induction fuel with
  | zero =>
    intro n hn
    have h0 : n = 0 := Nat.le_zero.mp hn
    subst h0
    simp [bitLengthAux]
  | succ fuel ih =>
    intro n hn
    by_cases h0 : n = 0
    · subst h0
      simp [bitLengthAux]
    · have hle : n / 2 ≤ fuel := by omega
      obtain ⟨h1, h2⟩ := ih (n / 2) hle
      simp only [bitLengthAux, if_neg h0, Nat.add_sub_cancel]
      constructor
      · rw [pow_succ]
        omega
      · intro _
        by_cases hq : n / 2 = 0
        · have hb : bitLengthAux fuel (n / 2) = 0 := by
            rw [hq]
            cases fuel <;> simp [bitLengthAux]
          rw [hb]
          simp
          omega
        · have h3 := h2 (Nat.pos_of_ne_zero hq)
          have hb : bitLengthAux fuel (n / 2) ≠ 0 := by
            intro hb
            rw [hb] at h1
            simp at h1
            exact hq h1
          obtain ⟨k, hk⟩ := Nat.exists_eq_succ_of_ne_zero hb
          rw [hk] at h3 ⊢
          simp only [Nat.succ_sub_one] at h3
          rw [Nat.succ_eq_add_one, pow_succ]
          omega

/-- The fuel of `bitLength` suffices: `bitLength n` is the number of binary digits of `n`. -/
theorem bitLength_spec (n : Nat) :
    n < 2 ^ bitLength n ∧ (0 < n → 2 ^ (bitLength n - 1) ≤ n) :=
  bitLengthAux_spec n n (Nat.le_refl n)

/-- The operator `+` on `F64` is `F64.add`. -/
theorem F64.add_def (a b : F64) : a + b = F64.add a b := rfl

/-- The operator `*` on `F64` is `F64.mul`. -/
theorem F64.mul_def (a b : F64) : a * b = F64.mul a b := rfl

/-- The operator `==` on `F64` is `F64.eq`. -/
theorem F64.beq_def (a b : F64) : (a == b) = F64.eq a b := rfl

/-- The literal `0` is `+0`. -/
theorem F64.zero_def : (0 : F64) = F64.zero false := rfl

/-- A value made from its bits is a zero, an infinity or a nonzero finite value, of the given
sign. -/
theorem F64.ofOrd_cases (s : Bool) (n : Nat) :
    F64.ofOrd s n = F64.zero s ∨ F64.ofOrd s n = F64.inf s
      ∨ ∃ o h1 h2, F64.ofOrd s n = F64.finite s o h1 h2 := by
  unfold F64.ofOrd
  by_cases h0 : n = 0
  · exact Or.inl (dif_pos h0)
  · by_cases h : n < 2047 * 2 ^ 52
    · exact Or.inr (Or.inr ⟨n, Nat.pos_of_ne_zero h0, h, by rw [dif_neg h0, dif_pos h]⟩)
    · exact Or.inr (Or.inl (by rw [dif_neg h0, dif_neg h]))

/-- Rounding gives a zero, an infinity or a nonzero finite value, of the given sign; never
NaN. -/
theorem F64.round_cases (s : Bool) (m : Nat) (e : Int) :
    F64.round s m e = F64.zero s ∨ F64.round s m e = F64.inf s
      ∨ ∃ o h1 h2, F64.round s m e = F64.finite s o h1 h2 :=
  F64.ofOrd_cases s _

/-- A product is NaN exactly when a factor is NaN or the factors are a zero and an infinity. -/
theorem F64.mul_isNaN (a b : F64) :
    (a * b).isNaN = (a.isNaN || b.isNaN || (a.isInf && b.isZero) || (a.isZero && b.isInf)) := by
  cases a <;> cases b <;> simp [F64.mul_def, F64.mul, F64.isNaN, F64.isInf, F64.isZero]
  next s1 o1 _ _ s2 o2 _ _ =>
    rcases F64.round_cases (xor s1 s2) (F64.significand o1 * F64.significand o2)
      (F64.exponent o1 + F64.exponent o2) with h | h | ⟨o, h1, h2, h⟩ <;> rw [h]

/-- The sign bit of a product that is not NaN is the exclusive or of the sign bits. -/
theorem F64.mul_signBit (a b : F64) (h : (a * b).isNaN = false) :
    (a * b).signBit = xor a.signBit b.signBit := by
  cases a <;> cases b <;> simp [F64.mul_def, F64.mul, F64.isNaN, F64.signBit] at h ⊢
  next s1 o1 _ _ s2 o2 _ _ =>
    rcases F64.round_cases (xor s1 s2) (F64.significand o1 * F64.significand o2)
      (F64.exponent o1 + F64.exponent o2) with h | h | ⟨o, h1, h2, h⟩ <;> rw [h]

/-- A product by a zero is a zero, unless it is NaN. -/
theorem F64.mul_isZero_of_right (a b : F64) (h : (a * b).isNaN = false)
    (hb : b.isZero = true) : (a * b).isZero = true := by
  cases b <;> simp [F64.isZero] at hb
  cases a <;> simp [F64.mul_def, F64.mul, F64.isNaN, F64.isZero] at h ⊢

/-- The comparison `0 <= x` holds exactly of the zeros and of the values with a clear sign bit
other than NaN. -/
theorem F64.zero_le_iff (x : F64) :
    F64.le 0 x = true ↔ x.isNaN = false ∧ (x.signBit = false ∨ x.isZero = true) := by
  cases x <;> simp [F64.zero_def, F64.le, F64.key, F64.isNaN, F64.signBit, F64.isZero]
  next s => cases s <;> simp
  next s o h1 h2 =>
    cases s
    · simp
    · simp
      omega

/-- The comparison `x <= 0` holds exactly of the zeros and of the values with the sign bit set
other than NaN. -/
theorem F64.le_zero_iff (x : F64) :
    F64.le x 0 = true ↔ x.isNaN = false ∧ (x.signBit = true ∨ x.isZero = true) := by
  cases x <;> simp [F64.zero_def, F64.le, F64.key, F64.isNaN, F64.signBit, F64.isZero]
  next s => cases s <;> simp
  next s o h1 h2 =>
    cases s
    · simp
      omega
    · simp

/-- The comparison `x < 0` holds exactly of the values with the sign bit set that are neither a
zero nor NaN. -/
theorem F64.lt_zero_iff (x : F64) :
    F64.lt x 0 = true ↔ x.isNaN = false ∧ x.signBit = true ∧ x.isZero = false := by
  cases x <;> simp [F64.zero_def, F64.lt, F64.key, F64.isNaN, F64.signBit, F64.isZero]
  next s => cases s <;> simp
  next s o h1 h2 =>
    cases s
    · simp
    · simp
      omega

/-- A square is never negative: its sign bit is clear. -/
theorem F64.mul_self_signBit (a : F64) : (a * a).signBit = false := by
  by_cases h : (a * a).isNaN = false
  · rw [F64.mul_signBit a a h, Bool.xor_self]
  · cases hq : a * a <;> simp_all [F64.signBit, F64.isNaN]

/-- With `dt` a zero, `x0 + d * dt == x0` exactly when `x0` is not NaN and `d` is finite. -/
theorem F64.add_mul_zero_beq (x0 d dt : F64) (hdt : dt.isZero = true) :
    (x0 + d * dt == x0) = true ↔ x0.isNaN = false ∧ d.isFinite = true := by
  cases dt <;> simp [F64.isZero] at hdt
  cases d <;> cases x0 <;>
    simp [F64.add_def, F64.mul_def, F64.beq_def, F64.add, F64.mul, F64.eq, F64.key, F64.isNaN,
      F64.isFinite]

/-- With `dt` a zero, `x0 + d * dt` is NaN exactly when `x0` is NaN or `d` is not finite. -/
theorem F64.add_mul_zero_isNaN (x0 d dt : F64) (hdt : dt.isZero = true) :
    (x0 + d * dt).isNaN = (x0.isNaN || !d.isFinite) := by
  cases dt <;> simp [F64.isZero] at hdt
  cases d <;> cases x0 <;>
    simp [F64.add_def, F64.mul_def, F64.add, F64.mul, F64.isNaN, F64.isFinite]

/-- With `dt` a zero, `y * dt` is NaN exactly when `y` is not finite. -/
theorem F64.mul_zero_isNaN (y dt : F64) (hdt : dt.isZero = true) :
    (y * dt).isNaN = !y.isFinite := by
  cases dt <;> simp [F64.isZero] at hdt
  cases y <;> simp [F64.mul_def, F64.mul, F64.isNaN, F64.isFinite]

/-- With `dt` a zero, `y * dt == 0` exactly when `y` is finite. -/
theorem F64.mul_zero_beq (y dt : F64) (hdt : dt.isZero = true) :
    (y * dt == 0) = true ↔ y.isFinite = true := by
  cases dt <;> simp [F64.isZero] at hdt
  cases y <;>
    simp [F64.zero_def, F64.mul_def, F64.beq_def, F64.mul, F64.eq, F64.key, F64.isFinite]

/-- Known bit patterns: `12.1` is `0x4028333333333333`, `0.1 + 0.2` is `0x3FD3333333333334` (not
the double `0.3`), `2^53 + 1` rounds to `2^53`, and the largest double times 2 overflows. -/
theorem F64.known_values :
    F64.key (12.1 : F64) = some 4623001312491156275
      ∧ F64.key ((0.1 : F64) + 0.2) = some 4599075939470750516
      ∧ ((0.1 : F64) + 0.2 == 0.3) = false
      ∧ ((9007199254740992 : F64) + 1 == 9007199254740992) = true
      ∧ (1.7976931348623157e308 : F64) * 2 = F64.inf false
      ∧ F64.key (5e-324 : F64) = some 1 := by
  decide

/-- C1: for every model that inherits `expectation` (in `diffusionProcesses.cpp` and in
`main.cpp` alike) and all `t0`, `x0`, `dt`, `expectation(t0, x0, dt)` is
`x0 + drift(t0, x0) * dt`, the drift being taken at the left endpoint `(t0, x0)`.  It holds
for any carrier with an addition and a multiplication. -/
theorem expectation_eq_euler {α : Type} [Add α] [Mul α] (x0_ : α)
    (drift diffusion : Time α → α → α) (t0 : Time α) (x0 : α) (dt : Time α) :
    (DiffusionProcessesCpp.DiffusionProcess.new x0_ drift diffusion).expectation t0 x0 dt
        = x0 + drift t0 x0 * dt
      ∧ (MainCpp.DiffusionProcess.new x0_ drift diffusion).expectation t0 x0 dt
        = x0 + drift t0 x0 * dt :=
  ⟨rfl, rfl⟩

/-- C2: for every model that inherits `variance` (in `diffusionProcesses.cpp` and in `main.cpp`
alike) and all `t0`, `x0`, `dt`, `variance(t0, x0, dt)` is `diffusion(t0, x0)^2 * dt`, the
diffusion being taken at the left endpoint `(t0, x0)`. -/
theorem variance_eq_sq_mul {α : Type} [Monoid α] (x0_ : α)
    (drift diffusion : Time α → α → α) (t0 : Time α) (x0 : α) (dt : Time α) :
    (DiffusionProcessesCpp.DiffusionProcess.new x0_ drift diffusion).variance t0 x0 dt
        = diffusion t0 x0 ^ 2 * dt
      ∧ (MainCpp.DiffusionProcess.new x0_ drift diffusion).variance t0 x0 dt
        = diffusion t0 x0 ^ 2 * dt := by
  constructor <;>
    simp only [DiffusionProcessesCpp.DiffusionProcess.variance,
      DiffusionProcessesCpp.DiffusionProcess.new, MainCpp.DiffusionProcess.variance,
      MainCpp.DiffusionProcess.new, pow_two]


/-- Counterexample to C3 as stated: the Black-Scholes model with rate 0.05 and the finite
volatility 1e200 has an infinite drift, so `expectation(0, 12.1, 0)` is `12.1 + (-inf) * 0`, which
is NaN, and the comparison with 12.1 is false. -/
theorem expectation_zero_step_infinite_drift :
    (1e200 : F64).isFinite = true
      ∧ ((BlackScholesProcess.new (0.05 : F64) 1e200 none).drift 0 12.1).isInf = true
      ∧ ((BlackScholesProcess.new (0.05 : F64) 1e200 none).expectation 0 12.1 0).isNaN = true
      ∧ ((BlackScholesProcess.new (0.05 : F64) 1e200 none).expectation 0 12.1 0 == 12.1)
          = false := by
  decide

/-- C3, amended: for every model, every `t`, every `x0` and a zero time step `dt`,
`expectation(t, x0, dt) == x0` holds exactly when `x0` is not NaN and `drift(t, x0)` is finite;
the result is NaN exactly when `x0` is NaN or `drift(t, x0)` is not finite.  The test of
`main.cpp` (rate 0.05, volatility 0.06, no `s0`) gets exactly 12.1 from
`expectation(0, 12.1, 0)`, so the test function returns `true`. -/
theorem expectation_zero_step (p : DiffusionProcess F64) (t : Time F64) (x0 : F64)
    (dt : Time F64) (hdt : F64.isZero dt = true) :
    ((p.expectation t x0 dt == x0) = true ↔
        F64.isNaN x0 = false ∧ F64.isFinite (p.drift t x0) = true)
      ∧ F64.isNaN (p.expectation t x0 dt) = (F64.isNaN x0 || !F64.isFinite (p.drift t x0))
      ∧ (BlackScholesProcess.new (0.05 : F64) 0.06 none).expectation 0 12.1 0 = 12.1
      ∧ BlackScholesProcess_expected_price_after_time_0_should_be_the_starting_price F64
          = true :=
  ⟨F64.add_mul_zero_beq x0 (p.drift t x0) dt hdt,
    F64.add_mul_zero_isNaN x0 (p.drift t x0) dt hdt, by decide, by decide⟩

/-- Witness of the amended C3: the model of the test, `x0 = 12.1`, `dt = 0`. -/
theorem expectation_zero_step_witness :
    F64.isZero (0 : F64) = true
      ∧ ((BlackScholesProcess.new (0.05 : F64) 0.06 none).toDiffusionProcess.expectation
          0 12.1 0 == 12.1) = true :=
  ⟨by decide,
    (expectation_zero_step (BlackScholesProcess.new (0.05 : F64) 0.06 none).toDiffusionProcess
      0 12.1 0 (by decide)).1.mpr ⟨by decide, by decide⟩⟩

/-- Counterexample to C4 as stated: the diffusion 1e200 is finite, but its square overflows to
`+inf` and `inf * 0` is NaN, so `variance(0, 12.1, 0) == 0` is false, in `main.cpp` and in
`diffusionProcesses.cpp`. -/
theorem variance_zero_step_overflow :
    ((BlackScholesProcess.new (0.05 : F64) 1e200 none).diffusion 0 12.1).isFinite = true
      ∧ ((BlackScholesProcess.new (0.05 : F64) 1e200 none).variance 0 12.1 0).isNaN = true
      ∧ ((BlackScholesProcess.new (0.05 : F64) 1e200 none).variance 0 12.1 0 == 0) = false
      ∧ ((DiffusionProcessesCpp.DiffusionProcess.new (0 : F64) (fun _ _ => 0)
          (fun _ _ => 1e200)).variance 0 12.1 0 == 0) = false := by
  decide

/-- C4, amended: for every model (of `main.cpp` and of `diffusionProcesses.cpp`), all `t0`, `x0`
and a zero time step `dt`, `variance(t0, x0, dt) == 0` holds exactly when the square
`diffusion(t0, x0) * diffusion(t0, x0)` is finite, whatever the drift is; when the square is
not finite (a finite diffusion whose square overflows included) the variance is NaN. -/
theorem variance_zero_step (x0_ : F64) (drift diffusion : Time F64 → F64 → F64)
    (t0 : Time F64) (x0 : F64) (dt : Time F64) (hdt : F64.isZero dt = true) :
    (((MainCpp.DiffusionProcess.new x0_ drift diffusion).variance t0 x0 dt == 0) = true ↔
        F64.isFinite (diffusion t0 x0 * diffusion t0 x0) = true)
      ∧ (((DiffusionProcessesCpp.DiffusionProcess.new x0_ drift diffusion).variance t0 x0 dt
          == 0) = true ↔ F64.isFinite (diffusion t0 x0 * diffusion t0 x0) = true)
      ∧ F64.isNaN ((MainCpp.DiffusionProcess.new x0_ drift diffusion).variance t0 x0 dt)
          = !F64.isFinite (diffusion t0 x0 * diffusion t0 x0)
      ∧ F64.isNaN ((DiffusionProcessesCpp.DiffusionProcess.new x0_ drift diffusion).variance
          t0 x0 dt) = !F64.isFinite (diffusion t0 x0 * diffusion t0 x0) :=
  ⟨F64.mul_zero_beq _ dt hdt, F64.mul_zero_beq _ dt hdt, F64.mul_zero_isNaN _ dt hdt,
    F64.mul_zero_isNaN _ dt hdt⟩

/-- Witness of the amended C4: diffusion 0.06 everywhere and `dt = 0`. -/
theorem variance_zero_step_witness :
    F64.isZero (0 : F64) = true
      ∧ ((MainCpp.DiffusionProcess.new (0 : F64) (fun _ _ => 1) (fun _ _ => 0.06)).variance
          0 12.1 0 == 0) = true :=
  ⟨by decide,
    (variance_zero_step (0 : F64) (fun _ _ => 1) (fun _ _ => 0.06) 0 12.1 0
      (by decide)).1.mpr (by decide)⟩

/-- Counterexample to C5 as stated: with the diffusion 1e200 and `dt = 0 >= 0` the variance is
NaN, and `variance(0, 12.1, 0) >= 0` is false. -/
theorem variance_nonneg_overflow :
    F64.le 0 (0 : F64) = true
      ∧ ((BlackScholesProcess.new (0.05 : F64) 1e200 none).variance 0 12.1 0).isNaN = true
      ∧ F64.le 0 ((BlackScholesProcess.new (0.05 : F64) 1e200 none).variance 0 12.1 0)
          = false := by
  decide

/-- C5, amended: for every model with the inherited `variance`, all `t0`, `x0` and every
`dt >= 0`, the variance is NaN exactly when the square of `diffusion(t0, x0)` is NaN, or is
infinite with `dt` a zero, or is a zero with `dt` infinite; in every other case
`variance(t0, x0, dt) >= 0`, whatever the sign of `diffusion(t0, x0)`. -/
theorem variance_nonneg (p : DiffusionProcess F64) (t0 : Time F64) (x0 : F64) (dt : Time F64)
    (hdt : F64.le 0 dt = true) :
    (F64.isNaN (p.variance t0 x0 dt)
        = (F64.isNaN (p.diffusion t0 x0 * p.diffusion t0 x0)
          || (F64.isInf (p.diffusion t0 x0 * p.diffusion t0 x0) && F64.isZero dt)
          || (F64.isZero (p.diffusion t0 x0 * p.diffusion t0 x0) && F64.isInf dt)))
      ∧ (F64.isNaN (p.variance t0 x0 dt) = false → F64.le 0 (p.variance t0 x0 dt) = true) := by
  obtain ⟨hnan, hs⟩ := (F64.zero_le_iff dt).mp hdt
  simp only [DiffusionProcess.variance]
  constructor
  · rw [F64.mul_isNaN, hnan, Bool.or_false]
  · intro h
    refine (F64.zero_le_iff _).mpr ⟨h, ?_⟩
    rcases hs with hs | hs
    · left
      rw [F64.mul_signBit _ _ h, F64.mul_self_signBit, hs]
      rfl
    · right
      exact F64.mul_isZero_of_right _ _ h hs

/-- Witness of the amended C5: a model whose diffusion is `-3` everywhere, step `dt = 2`. -/
theorem variance_nonneg_witness :
    F64.le 0 (2 : F64) = true
      ∧ F64.le 0 ((DiffusionProcess.new (0 : F64) (fun _ _ => 1) (fun _ _ => -3)).variance
          0 5 2) = true :=
  ⟨by decide,
    (variance_nonneg (DiffusionProcess.new (0 : F64) (fun _ _ => 1) (fun _ _ => -3)) 0 5 2
      (by decide)).2 (by decide)⟩

/-- Counterexample to C6 as stated: with `dt = -1 < 0`, the volatility 0 and the nonzero
volatility 1e-200 (whose square underflows) both give the variance `-0.0`, which is not
negative: `variance(0, 12.1, -1) < 0` is false. -/
theorem variance_neg_step_negative_zero :
    F64.lt (-1 : F64) 0 = true
      ∧ (BlackScholesProcess.new (0.05 : F64) 0.0 none).variance 0 12.1 (-1) = F64.zero true
      ∧ F64.lt ((BlackScholesProcess.new (0.05 : F64) 0.0 none).variance 0 12.1 (-1)) 0 = false
      ∧ ((1e-200 : F64) == 0) = false
      ∧ (BlackScholesProcess.new (0.05 : F64) 1e-200 none).variance 0 12.1 (-1) = F64.zero true
      ∧ F64.lt ((BlackScholesProcess.new (0.05 : F64) 1e-200 none).variance 0 12.1 (-1)) 0
          = false := by
  decide

/-- C6, amended: for every model with the inherited `variance`, all `t0`, `x0` and every
negative `dt`, the variance is the product `diffusion(t0, x0) * diffusion(t0, x0) * dt` with no
clamping.  It is NaN exactly when the square of the diffusion is NaN, or is a zero with `dt`
infinite.  In every other case it has the sign bit of `dt` and is `<= 0`, and it is `< 0`
unless it is the zero `-0.0`. -/
theorem variance_neg_step (p : DiffusionProcess F64) (t0 : Time F64) (x0 : F64) (dt : Time F64)
    (hdt : F64.lt dt 0 = true) :
    p.variance t0 x0 dt = p.diffusion t0 x0 * p.diffusion t0 x0 * dt
      ∧ (F64.isNaN (p.variance t0 x0 dt)
          = (F64.isNaN (p.diffusion t0 x0 * p.diffusion t0 x0)
            || (F64.isZero (p.diffusion t0 x0 * p.diffusion t0 x0) && F64.isInf dt)))
      ∧ (F64.isNaN (p.variance t0 x0 dt) = false →
          F64.signBit (p.variance t0 x0 dt) = F64.signBit dt
            ∧ F64.le (p.variance t0 x0 dt) 0 = true
            ∧ F64.lt (p.variance t0 x0 dt) 0 = !F64.isZero (p.variance t0 x0 dt)) := by
  obtain ⟨hnan, hs, hz⟩ := (F64.lt_zero_iff dt).mp hdt
  refine ⟨rfl, ?_, ?_⟩
  · simp only [DiffusionProcess.variance]
    rw [F64.mul_isNaN, hnan, hz]
    simp
  · simp only [DiffusionProcess.variance]
    intro h
    have hsign : F64.signBit (p.diffusion t0 x0 * p.diffusion t0 x0 * dt) = true := by
      rw [F64.mul_signBit _ _ h, F64.mul_self_signBit, hs]
      rfl
    refine ⟨by rw [hsign, hs], (F64.le_zero_iff _).mpr ⟨h, Or.inl hsign⟩, ?_⟩
    cases hq : F64.isZero (p.diffusion t0 x0 * p.diffusion t0 x0 * dt)
    · exact (F64.lt_zero_iff _).mpr ⟨h, hsign, hq⟩
    · cases hl : F64.lt (p.diffusion t0 x0 * p.diffusion t0 x0 * dt) 0
      · rfl
      · have hf := ((F64.lt_zero_iff _).mp hl).2.2
        rw [hq] at hf
        exact absurd hf (by decide)

/-- Witness of the amended C6: diffusion `-3` everywhere and `dt = -2`; the variance is
negative. -/
theorem variance_neg_step_witness :
    F64.lt (-2 : F64) 0 = true
      ∧ F64.lt ((DiffusionProcess.new (0 : F64) (fun _ _ => 1) (fun _ _ => -3)).variance
          0 5 (-2)) 0 = true :=
  ⟨by decide,
    ((variance_neg_step (DiffusionProcess.new (0 : F64) (fun _ _ => 1) (fun _ _ => -3)) 0 5
      (-2) (by decide)).2.2 (by decide)).2.2.trans (by decide)⟩

/-- C7: a model constructed with initial value `x0` returns `x0` from `x0()`;
`BlackScholesProcess(rate, volatility, s0).x0()` is `s0`, and
`BlackScholesProcess(rate, volatility).x0()` is `0.0`. -/
theorem x0_returns_initial_value {α : Type} [Sub α] [Mul α] [OfScientific α] :
    (∀ (x0 : α) (drift diffusion : Time α → α → α),
        (DiffusionProcess.new x0 drift diffusion).x0 = x0)
      ∧ (∀ (rate : Rate α) (volatility s0 : α),
        (BlackScholesProcess.new rate volatility (some s0)).x0 = s0)
      ∧ (∀ (rate : Rate α) (volatility : α),
        (BlackScholesProcess.new rate volatility none).x0 = 0.0) :=
  ⟨fun _ _ _ => rfl, fun _ _ _ => rfl, fun _ _ => rfl⟩


/-- Counterexample to C8 as stated: at rate 0.05 and volatility 1.5e154 the code's drift
`r - (0.5 * sigma) * sigma` is finite, while `r - 0.5 * sigma^2` is `-inf` because the square
overflows; the two are not equal. -/
theorem blackScholes_drift_square_overflow :
    ((BlackScholesProcess.new (0.05 : F64) 1.5e154 none).drift 0 12.1).isFinite = true
      ∧ ((0.05 : F64) - 0.5 * ((1.5e154 : F64) * 1.5e154)).isInf = true
      ∧ ((BlackScholesProcess.new (0.05 : F64) 1.5e154 none).drift 0 12.1
          == (0.05 : F64) - 0.5 * ((1.5e154 : F64) * 1.5e154)) = false := by
  decide

/-- C8, amended: for the Black-Scholes model with rate `r` and volatility `sigma`, at every `t`,
`x`: `drift(t, x) = r - 0.5 * sigma * sigma`, the product being taken from the left as
`(0.5 * sigma) * sigma`, and `diffusion(t, x) = sigma`; neither depends on `t` or `x`.  It holds
for every carrier with the operations, so for the program's doubles. -/
theorem blackScholes_coefficients {α : Type} [Sub α] [Mul α] [OfScientific α] (r : Rate α)
    (sigma : α) (s0 : Option α) (t : Time α) (x : α) (t' : Time α) (x' : α) :
    (BlackScholesProcess.new r sigma s0).drift t x = r - 0.5 * sigma * sigma
      ∧ (BlackScholesProcess.new r sigma s0).diffusion t x = sigma
      ∧ (BlackScholesProcess.new r sigma s0).drift t x
          = (BlackScholesProcess.new r sigma s0).drift t' x'
      ∧ (BlackScholesProcess.new r sigma s0).diffusion t x
          = (BlackScholesProcess.new r sigma s0).diffusion t' x' :=
  ⟨rfl, rfl, rfl, rfl⟩

/-- Counterexample to C9 as stated: at rate 0.05 and volatility 1.5e154 the model, used through
the `DiffusionProcess` interface, returns a finite `expectation(0, 0, 1)`, while
`x0 + (r - 0.5 * sigma^2) * dt` is `-inf`; the two are not equal. -/
theorem blackScholes_expectation_square_overflow :
    ((BlackScholesProcess.new (0.05 : F64) 1.5e154 none).toDiffusionProcess.expectation
        0 0 1).isFinite = true
      ∧ ((0 : F64) + ((0.05 : F64) - 0.5 * ((1.5e154 : F64) * 1.5e154)) * 1).isInf = true
      ∧ ((BlackScholesProcess.new (0.05 : F64) 1.5e154 none).toDiffusionProcess.expectation
          0 0 1 == (0 : F64) + ((0.05 : F64) - 0.5 * ((1.5e154 : F64) * 1.5e154)) * 1)
          = false := by
  decide

/-- C9, amended: a Black-Scholes model used through the `DiffusionProcess` interface computes
the inherited operations from its own coefficients: for all `r`, `sigma`, `s0`, `t0`, `x0`, `dt`,
`expectation(t0, x0, dt) = x0 + (r - 0.5 * sigma * sigma) * dt`, the product being taken from
the left as `(0.5 * sigma) * sigma`, and `variance(t0, x0, dt) = sigma * sigma * dt`.  It holds
for every carrier with the operations, so for the program's doubles. -/
theorem blackScholes_substitutable {α : Type} [Add α] [Sub α] [Mul α] [OfScientific α]
    (r : Rate α) (sigma : α) (s0 : Option α) (t0 : Time α) (x0 : α) (dt : Time α) :
    (BlackScholesProcess.new r sigma s0).toDiffusionProcess.expectation t0 x0 dt
        = x0 + (r - 0.5 * sigma * sigma) * dt
      ∧ (BlackScholesProcess.new r sigma s0).toDiffusionProcess.variance t0 x0 dt
        = sigma * sigma * dt :=
  ⟨rfl, rfl⟩

/-- C12: the class `DiffusionProcess` of `diffusionProcesses.cpp` and the one of `main.cpp` are
the same definition: for all coefficient functions `drift`, `diffusion` and all `x0`, `t0`, `x`,
`dt`, the two return equal results from `x0()`, `expectation(t0, x, dt)` and
`variance(t0, x, dt)`, and hold the same coefficient functions. -/
theorem diffusionProcess_copies_agree {α : Type} [Add α] [Mul α]
    (drift diffusion : Time α → α → α) (x0 : α) (t0 : Time α) (x : α) (dt : Time α) :
    (DiffusionProcessesCpp.DiffusionProcess.new x0 drift diffusion).x0
        = (MainCpp.DiffusionProcess.new x0 drift diffusion).x0
      ∧ (DiffusionProcessesCpp.DiffusionProcess.new x0 drift diffusion).expectation t0 x dt
        = (MainCpp.DiffusionProcess.new x0 drift diffusion).expectation t0 x dt
      ∧ (DiffusionProcessesCpp.DiffusionProcess.new x0 drift diffusion).variance t0 x dt
        = (MainCpp.DiffusionProcess.new x0 drift diffusion).variance t0 x dt
      ∧ (DiffusionProcessesCpp.DiffusionProcess.new x0 drift diffusion).drift
        = (MainCpp.DiffusionProcess.new x0 drift diffusion).drift
      ∧ (DiffusionProcessesCpp.DiffusionProcess.new x0 drift diffusion).diffusion
        = (MainCpp.DiffusionProcess.new x0 drift diffusion).diffusion :=
  ⟨rfl, rfl, rfl, rfl, rfl⟩

/-- C14: for a Black-Scholes model and all `t0`, `x0`, `dt1`, `dt2`, over exact arithmetic, two
consecutive steps of the mean are one combined step:
`expectation(t0 + dt1, expectation(t0, x0, dt1), dt2) = expectation(t0, x0, dt1 + dt2)`. -/
theorem blackScholes_expectation_steps_compose {α : Type} [LinearOrderedField α] (r : Rate α)
    (sigma : α) (s0 : Option α) (t0 : Time α) (x0 : α) (dt1 dt2 : Time α) :
    (BlackScholesProcess.new r sigma s0).expectation (t0 + dt1)
        ((BlackScholesProcess.new r sigma s0).expectation t0 x0 dt1) dt2
      = (BlackScholesProcess.new r sigma s0).expectation t0 x0 (dt1 + dt2) := by
  simp only [BlackScholesProcess.expectation, DiffusionProcess.expectation,
    BlackScholesProcess.toDiffusionProcess, BlackScholesProcess.drift]
  ring

/-- C15: for a Black-Scholes model and all `t0`, `x0`, `x1`, `dt1`, `dt2`, over exact
arithmetic, the variance is additive over consecutive steps:
`variance(t0, x0, dt1) + variance(t0 + dt1, x1, dt2) = variance(t0, x0, dt1 + dt2)`. -/
theorem blackScholes_variance_steps_add {α : Type} [LinearOrderedField α] (r : Rate α)
    (sigma : α) (s0 : Option α) (t0 : Time α) (x0 x1 : α) (dt1 dt2 : Time α) :
    (BlackScholesProcess.new r sigma s0).variance t0 x0 dt1
        + (BlackScholesProcess.new r sigma s0).variance (t0 + dt1) x1 dt2
      = (BlackScholesProcess.new r sigma s0).variance t0 x0 (dt1 + dt2) := by
  simp only [BlackScholesProcess.variance, DiffusionProcess.variance,
    BlackScholesProcess.toDiffusionProcess, BlackScholesProcess.diffusion]
  ring

/-- C16: for all `r`, `sigma`, `t0`, `x0`, `h`, `dt`, over exact arithmetic, the Black-Scholes
mean commutes with translation, `expectation(t0, x0 + h, dt) = expectation(t0, x0, dt) + h`,
and the expected increment `expectation(t0, x0, dt) - x0` is the same at every `x0` and every
`t0`, namely `(r - 0.5 * sigma^2) * dt`. -/
theorem blackScholes_expectation_translation {α : Type} [LinearOrderedField α] (r : Rate α)
    (sigma : α) (s0 : Option α) (t0 : Time α) (x0 h : α) (dt : Time α) (t0' : Time α)
    (x0' : α) :
    (BlackScholesProcess.new r sigma s0).expectation t0 (x0 + h) dt
        = (BlackScholesProcess.new r sigma s0).expectation t0 x0 dt + h
      ∧ (BlackScholesProcess.new r sigma s0).expectation t0 x0 dt - x0
        = (BlackScholesProcess.new r sigma s0).expectation t0' x0' dt - x0'
      ∧ (BlackScholesProcess.new r sigma s0).expectation t0 x0 dt - x0
        = (r - 0.5 * sigma ^ 2) * dt := by
  simp only [BlackScholesProcess.expectation, DiffusionProcess.expectation,
    BlackScholesProcess.toDiffusionProcess, BlackScholesProcess.drift, BlackScholesProcess.new]
  refine ⟨?_, ?_, ?_⟩ <;> ring

end Theorems
